import Mathlib

/-!
Verification development for the bitmap-sand beach simulator
(src/beach_simulator.py).

The sand bitmap is a rows × cols grid of boolean occupancy.  We embed it as
an occupancy function on integer coordinates together with explicit
`rows`/`cols` dimensions (the Python code stores the dimensions in
`self.sand_rows` / `self.sand_cols` and they never change).  Python floats
are embedded as rationals (all the float arithmetic the claims depend on is
exact on the values involved), `random.random()` / `random.uniform` draws
are an explicit input stream, and fallible indexing is Option-valued.
-/

/-- Occupancy function of the sand bitmap: `occ r c = true` iff cell
(row `r`, column `c`) holds sand.  Row 0 is the top row, as in the code. -/
abbrev Occ := ℤ → ℤ → Bool

/-- In-range test `0 <= r < rows && 0 <= c < cols`, the bounds test the
Python code writes out at each guarded access. -/
def inBoundsB (rows cols r c : ℤ) : Bool :=
  decide (0 ≤ r) && decide (r < rows) && decide (0 ≤ c) && decide (c < cols)

/-- Write one cell of the bitmap (`self.sand_bitmap[r][c] = b`). -/
def setCellF (occ : Occ) (r c : ℤ) (b : Bool) : Occ :=
  fun r' c' => if r' = r ∧ c' = c then b else occ r' c'

/-- Total occupied-cell count of the bitmap over the rows × cols window. -/
def sandCount (rows cols : ℤ) (occ : Occ) : ℕ :=
  ∑ p ∈ Finset.range rows.toNat ×ˢ Finset.range cols.toNat,
    (if occ (p.1 : ℤ) (p.2 : ℤ) then 1 else 0)

/-- The 4-neighbour offsets used by `is_sand_edge` and
`is_adjacent_to_sand`, in the order the Python code lists them. -/
def fourNeighborOffsets : List (ℤ × ℤ) := [(-1, 0), (1, 0), (0, -1), (0, 1)]

/-- BeachSimulator.is_sand_edge, with the initial unguarded access
`self.sand_bitmap[row][col]` made explicit: the function returns `none`
when (row, col) itself is out of range (the code performs no bounds check
of its own there).  For each 4-neighbour: in-range and empty means edge;
out of range above the bitmap (`nr < 0`) also means edge; any other
out-of-range neighbour is skipped. -/
def is_sand_edge_checked (rows cols : ℤ) (occ : Occ) (row col : ℤ) :
    Option Bool :=
  if inBoundsB rows cols row col then
    if occ row col = false then some false
    else
      some (fourNeighborOffsets.any (fun o =>
        let nr := row + o.1
        let nc := col + o.2
        if inBoundsB rows cols nr nc then !occ nr nc else decide (nr < 0)))
  else none

/-- Total wrapper for the edge test; all call sites in the simulator filter
coordinates to the grid before calling it. -/
def is_sand_edge (rows cols : ℤ) (occ : Occ) (row col : ℤ) : Bool :=
  (is_sand_edge_checked rows cols occ row col).getD false

/-- BeachSimulator.is_adjacent_to_sand: an in-range empty cell with at
least one occupied in-range 4-neighbour; out-of-range neighbours are
skipped by the loop's bounds guard. -/
def is_adjacent_to_sand (rows cols : ℤ) (occ : Occ) (row col : ℤ) : Bool :=
  if inBoundsB rows cols row col = false then false
  else if occ row col then false
  else fourNeighborOffsets.any (fun o =>
    let nr := row + o.1
    let nc := col + o.2
    inBoundsB rows cols nr nc && occ nr nc)

/-- The local helper get_pixel of BeachSimulator.check_sand_stability:
in-range cells read the bitmap, every out-of-range access (in any
direction, including above row 0) reads as solid. -/
def get_pixel (rows cols : ℤ) (occ : Occ) (row col dr dc : ℤ) : Bool :=
  let nr := row + dr
  let nc := col + dc
  if inBoundsB rows cols nr nc then occ nr nc else true

/-- BeachSimulator.check_sand_stability: returns (stable, new_row, new_col).
Empty cells and bottom-row cells are stable; otherwise the three support
conditions are tested, and an unstable cell falls straight down when the
cell below is empty and otherwise slides down-left. -/
def check_sand_stability (rows cols : ℤ) (occ : Occ) (row col : ℤ) :
    Bool × ℤ × ℤ :=
  if occ row col = false then (true, row, col)
  else if rows - 1 ≤ row then (true, row, col)
  else
    let p1 := get_pixel rows cols occ row col 1 (-1)
    let p2 := get_pixel rows cols occ row col 1 0
    let p3 := get_pixel rows cols occ row col 1 1
    let p4 := get_pixel rows cols occ row col 0 (-1)
    let p6 := get_pixel rows cols occ row col 0 1
    let p7 := get_pixel rows cols occ row col (-1) (-1)
    let p9 := get_pixel rows cols occ row col (-1) 1
    if p2 && (p1 || p3) then (true, row, col)
    else if p1 && p4 && p7 then (true, row, col)
    else if p3 && p6 && p9 then (true, row, col)
    else if !p2 then (false, row + 1, col)
    else (false, row + 1, col - 1)

/-- Boundary-extended occupancy with the stability classifier's convention:
out-of-range cells in every direction (including above row 0) read as
occupied. -/
def solid_at (rows cols : ℤ) (occ : Occ) (r c : ℤ) : Bool :=
  if inBoundsB rows cols r c then occ r c else true

/-- Stability predicate as the specification words it, amended to match the
classifier: bottom row; or below occupied with one of the below-diagonals;
or below-left, left and above-left all occupied; or below-right, right and
above-right all occupied; out-of-range cells reading as occupied. -/
def spec_stable (rows cols : ℤ) (occ : Occ) (r c : ℤ) : Bool :=
  decide (r = rows - 1) ||
  (solid_at rows cols occ (r + 1) c &&
    (solid_at rows cols occ (r + 1) (c - 1) || solid_at rows cols occ (r + 1) (c + 1))) ||
  (solid_at rows cols occ (r + 1) (c - 1) && solid_at rows cols occ r (c - 1) &&
    solid_at rows cols occ (r - 1) (c - 1)) ||
  (solid_at rows cols occ (r + 1) (c + 1) && solid_at rows cols occ r (c + 1) &&
    solid_at rows cols occ (r - 1) (c + 1))

/-- Stability predicate exactly as claim C1 words it: below occupied with
one of the below-diagonals; or below-left and left; or below-right and
right; bottom row always stable. -/
def claim_stable (rows cols : ℤ) (occ : Occ) (r c : ℤ) : Bool :=
  decide (r = rows - 1) ||
  (solid_at rows cols occ (r + 1) c &&
    (solid_at rows cols occ (r + 1) (c - 1) || solid_at rows cols occ (r + 1) (c + 1))) ||
  (solid_at rows cols occ (r + 1) (c - 1) && solid_at rows cols occ r (c - 1)) ||
  (solid_at rows cols occ (r + 1) (c + 1) && solid_at rows cols occ r (c + 1))

/-- Boundary-extended occupancy with the edge test's convention: above
row 0 reads as empty, every other out-of-range cell as occupied. -/
def edge_ext (rows cols : ℤ) (occ : Occ) (r c : ℤ) : Bool :=
  if r < 0 then false else solid_at rows cols occ r c

/-- Boundary-extended occupancy with the adjacency test's convention:
every out-of-range cell reads as empty. -/
def adj_ext (rows cols : ℤ) (occ : Occ) (r c : ℤ) : Bool :=
  if inBoundsB rows cols r c then occ r c else false

/-- Adjacency test with the vertical boundary rule exactly as claim C4
words it: a cell below the bottom row reads as occupied, a cell above
row 0 as empty. -/
def claim_adjacent (rows cols : ℤ) (occ : Occ) (r c : ℤ) : Bool :=
  if inBoundsB rows cols r c = false then false
  else if occ r c then false
  else fourNeighborOffsets.any (fun o =>
    let nr := r + o.1
    let nc := c + o.2
    if nr < 0 then false
    else if rows ≤ nr then true
    else if inBoundsB rows cols nr nc then occ nr nc else false)

/-- Occupancy of the counterexample grid for C1: sand at (1,1), (2,0) and
(1,0) in a 4 × 4 grid. -/
def cxOccA : Occ := fun r c =>
  decide ((r, c) = ((1 : ℤ), (1 : ℤ))) || decide ((r, c) = ((2 : ℤ), (0 : ℤ))) ||
    decide ((r, c) = ((1 : ℤ), (0 : ℤ)))

/-- Occupancy of an entirely empty grid. -/
def emptyOcc : Occ := fun _ _ => false

lemma get_pixel_eq_solid_at (rows cols : ℤ) (occ : Occ) (r c dr dc : ℤ) :
    get_pixel rows cols occ r c dr dc = solid_at rows cols occ (r + dr) (c + dc) := rfl

lemma inBoundsB_iff {rows cols r c : ℤ} :
    inBoundsB rows cols r c = true ↔ 0 ≤ r ∧ r < rows ∧ 0 ≤ c ∧ c < cols := by
  simp [inBoundsB, and_assoc]

/-- Claim C1, counterexample: the cell (1,1) has its below-left and left
neighbours occupied, so the claim's predicate calls it stable, but the
classifier (which additionally requires the above-left cell) marks it
unstable. -/
theorem c1_counterexample :
    (check_sand_stability 4 4 cxOccA 1 1).1 = false ∧ claim_stable 4 4 cxOccA 1 1 = true := by
  decide

/-- Claim C1 (amended): for every occupied in-range cell, the
gravity-relaxation classifier marks it stable exactly when the amended
spec predicate holds (the two side-support cases also require the
corresponding above-diagonal cell). -/
theorem c1_stability_classifier_matches_spec :
    ∀ (rows cols : ℤ) (occ : Occ) (r c : ℤ),
      inBoundsB rows cols r c = true → occ r c = true →
      (check_sand_stability rows cols occ r c).1 = spec_stable rows cols occ r c := by
  intro rows cols occ r c hin hocc
  have hb := inBoundsB_iff.mp hin
  have hnocc : ¬ (occ r c = false) := by simp [hocc]
  by_cases hbot : rows - 1 ≤ r
  · have hr : r = rows - 1 := by omega
    simp [check_sand_stability, hnocc, hbot, spec_stable, hr]
  · have hr : ¬ (r = rows - 1) := by omega
    simp only [check_sand_stability]
    rw [if_neg hnocc, if_neg hbot]
    simp only [get_pixel_eq_solid_at, spec_stable]
    rw [decide_eq_false hr]
    have e1 : c + (-1 : ℤ) = c - 1 := by ring
    have e2 : r + (-1 : ℤ) = r - 1 := by ring
    have e3 : c + (0 : ℤ) = c := by ring
    have e4 : r + (0 : ℤ) = r := by ring
    simp only [e1, e2, e3, e4]
    generalize solid_at rows cols occ (r + 1) (c - 1) = b1
    generalize solid_at rows cols occ (r + 1) c = b2
    generalize solid_at rows cols occ (r + 1) (c + 1) = b3
    generalize solid_at rows cols occ r (c - 1) = b4
    generalize solid_at rows cols occ r (c + 1) = b6
    generalize solid_at rows cols occ (r - 1) (c - 1) = b7
    generalize solid_at rows cols occ (r - 1) (c + 1) = b9
    cases b1 <;> cases b2 <;> cases b3 <;> cases b4 <;> cases b6 <;> cases b7 <;>
      cases b9 <;> rfl

/-- Witness for c1_stability_classifier_matches_spec at a concrete grid. -/
theorem c1_stability_classifier_matches_spec_witness :
    inBoundsB 4 4 1 1 = true ∧ cxOccA 1 1 = true ∧
      (check_sand_stability 4 4 cxOccA 1 1).1 = spec_stable 4 4 cxOccA 1 1 :=
  ⟨by decide, by decide,
    c1_stability_classifier_matches_spec 4 4 cxOccA 1 1 (by decide) (by decide)⟩

/-- Occupancy of a 2 × 2 witness grid with a single sand cell at (1,0). -/
def occB : Occ := fun r c => decide (r = 1) && decide (c = 0)

lemma edge_pred_eq (rows cols : ℤ) (occ : Occ) (nr nc : ℤ) :
    (if inBoundsB rows cols nr nc then !occ nr nc else decide (nr < 0)) =
      !edge_ext rows cols occ nr nc := by
  by_cases h : inBoundsB rows cols nr nc = true
  · have hge : ¬ (nr < 0) := by have := inBoundsB_iff.mp h; omega
    simp [edge_ext, solid_at, h, hge]
  · by_cases h2 : nr < 0 <;>
      simp [edge_ext, solid_at, h, h2]

lemma adj_pred_eq (rows cols : ℤ) (occ : Occ) (nr nc : ℤ) :
    (inBoundsB rows cols nr nc && occ nr nc) = adj_ext rows cols occ nr nc := by
  by_cases h : inBoundsB rows cols nr nc = true <;> simp [adj_ext, h]

/-- Claim C4, counterexample: in an empty 2 × 3 grid the bottom-row cell
(1,1) has the implicitly-solid region right below it, so the claimed
boundary rule makes it adjacent-to-solid, but the code's adjacency test
skips out-of-range neighbours and answers false. -/
theorem c4_counterexample :
    is_adjacent_to_sand 2 3 emptyOcc 1 1 = false ∧ claim_adjacent 2 3 emptyOcc 1 1 = true := by
  decide

/-- Claim C4 (amended): the three occupancy-consulting operations use
different out-of-range conventions.  The edge test reads above-grid cells
as empty and every other out-of-range cell as occupied; the adjacency test
reads every out-of-range cell as empty; the stability classifier's pixel
reads read every out-of-range cell (including above row 0) as occupied. -/
theorem c4_boundary_conventions :
    ∀ (rows cols : ℤ) (occ : Occ) (r c : ℤ),
      inBoundsB rows cols r c = true →
      (is_sand_edge rows cols occ r c =
        (occ r c && fourNeighborOffsets.any
          (fun o => !edge_ext rows cols occ (r + o.1) (c + o.2)))) ∧
      (is_adjacent_to_sand rows cols occ r c =
        (!occ r c && fourNeighborOffsets.any
          (fun o => adj_ext rows cols occ (r + o.1) (c + o.2)))) ∧
      (∀ dr dc, inBoundsB rows cols (r + dr) (c + dc) = false →
        get_pixel rows cols occ r c dr dc = true) := by
  intro rows cols occ r c hin
  refine ⟨?_, ?_, ?_⟩
  · by_cases ho : occ r c = true
    · simp only [is_sand_edge, is_sand_edge_checked, hin, if_true, ho]
      simp [fourNeighborOffsets, edge_pred_eq]
    · have ho2 : occ r c = false := by simpa using ho
      simp [is_sand_edge, is_sand_edge_checked, hin, ho2]
  · by_cases ho : occ r c = true
    · simp [is_adjacent_to_sand, hin, ho]
    · have ho2 : occ r c = false := by simpa using ho
      simp only [is_adjacent_to_sand, hin, ho2]
      simp [fourNeighborOffsets, adj_pred_eq]
  · intro dr dc h
    simp [get_pixel, h]

/-- Witness for c4_boundary_conventions at a concrete grid. -/
theorem c4_boundary_conventions_witness :
    inBoundsB 2 2 1 0 = true ∧
      ((is_sand_edge 2 2 occB 1 0 =
        (occB 1 0 && fourNeighborOffsets.any
          (fun o => !edge_ext 2 2 occB (1 + o.1) (0 + o.2)))) ∧
      (is_adjacent_to_sand 2 2 occB 1 0 =
        (!occB 1 0 && fourNeighborOffsets.any
          (fun o => adj_ext 2 2 occB (1 + o.1) (0 + o.2)))) ∧
      (∀ dr dc, inBoundsB 2 2 (1 + dr) (0 + dc) = false →
        get_pixel 2 2 occB 1 0 dr dc = true)) :=
  ⟨by decide, c4_boundary_conventions 2 2 occB 1 0 (by decide)⟩

/-- Python int() conversion on an exact rational: truncation toward zero. -/
def truncToInt (q : ℚ) : ℤ := if 0 ≤ q then ⌊q⌋ else -⌊-q⌋

/-- Pixels per sand cell (SAND_CELL_SIZE). -/
def SAND_CELL_SIZE : ℚ := 4

/-- Lower bound of the per-particle sandiness scale. -/
def SANDINESS_MIN : ℤ := 0

/-- Upper bound of the per-particle sandiness scale. -/
def SANDINESS_MAX : ℤ := 10

/-- Pickup probability at high sandiness. -/
def PICKUP_PROB_MIN : ℚ := 1 / 100

/-- Pickup probability at low sandiness. -/
def PICKUP_PROB_MAX : ℚ := 2 / 100

/-- Deposit probability at low sandiness. -/
def DEPOSIT_PROB_MIN : ℚ := 1 / 100

/-- Deposit probability at high sandiness. -/
def DEPOSIT_PROB_MAX : ℚ := 2 / 100

/-- Per-cell pickup probability as a function of the particle's sandiness. -/
def pickup_prob (s : ℤ) : ℚ :=
  PICKUP_PROB_MAX - ((s : ℚ) / ((SANDINESS_MAX : ℤ) : ℚ)) * (PICKUP_PROB_MAX - PICKUP_PROB_MIN)

/-- Per-cell deposit probability as a function of the particle's sandiness. -/
def deposit_prob (s : ℤ) : ℚ :=
  DEPOSIT_PROB_MIN + ((s : ℚ) / ((SANDINESS_MAX : ℤ) : ℚ)) * (DEPOSIT_PROB_MAX - DEPOSIT_PROB_MIN)

/-- A water particle: physics-engine position plus core-owned sandiness. -/
structure WaterParticle where
  x : ℚ
  y : ℚ
  sandiness : ℤ

/-- The mutable state the erosion/deposition pass threads along: the sand
bitmap, the dirty set, and the position in the random-draw stream. -/
structure ErosionState where
  occ : Occ
  dirty : Finset (ℤ × ℤ)
  ridx : ℕ

/-- The 8-neighbour offsets of mark_neighbors_dirty, in loop order with
(0,0) skipped. -/
def eightNeighborOffsets : List (ℤ × ℤ) :=
  [(-1, -1), (-1, 0), (-1, 1), (0, -1), (0, 1), (1, -1), (1, 0), (1, 1)]

/-- BeachSimulator.mark_neighbors_dirty: add the in-range cells among the
8 neighbours of (r, c) to the dirty set.  The cell itself is skipped. -/
def mark_neighbors_dirty (rows cols : ℤ) (dirty : Finset (ℤ × ℤ)) (r c : ℤ) :
    Finset (ℤ × ℤ) :=
  dirty ∪ ((eightNeighborOffsets.map (fun o => (r + o.1, c + o.2))).filter
    (fun q => inBoundsB rows cols q.1 q.2)).toFinset

/-- Scan offsets of the erosion loop: dr in -2..2 outer, dc in -2..2 inner
(check_radius = 2). -/
def scanOffsets : List (ℤ × ℤ) :=
  (List.range 5).flatMap (fun a => (List.range 5).map (fun b => ((a : ℤ) - 2, (b : ℤ) - 2)))

/-- The neighbourhood scan of BeachSimulator.process_erosion_deposition for
one water particle located at bitmap cell (row, col) with sandiness s.
Walks the offsets in loop order; out-of-range cells are skipped; the first
successful pickup or deposit mutates the bitmap, marks the neighbours of
the mutated cell dirty, adjusts sandiness by one and stops the scan
(did_action).  A uniform draw rand n is consumed exactly where the Python
code calls random.random(). -/
def scan_cells (rows cols : ℤ) (rand : ℕ → ℚ) (row col : ℤ) :
    List (ℤ × ℤ) → ErosionState → ℤ → ErosionState × ℤ × Bool
  | [], st, s => (st, s, false)
  | o :: rest, st, s =>
    let nr := row + o.1
    let nc := col + o.2
    if inBoundsB rows cols nr nc then
      if st.occ nr nc && is_sand_edge rows cols st.occ nr nc then
        if s < SANDINESS_MAX then
          if rand st.ridx < pickup_prob s then
            ({ occ := setCellF st.occ nr nc false,
               dirty := mark_neighbors_dirty rows cols st.dirty nr nc,
               ridx := st.ridx + 1 }, s + 1, true)
          else scan_cells rows cols rand row col rest { st with ridx := st.ridx + 1 } s
        else scan_cells rows cols rand row col rest st s
      else if !st.occ nr nc && is_adjacent_to_sand rows cols st.occ nr nc then
        if SANDINESS_MIN < s then
          if rand st.ridx < deposit_prob s then
            ({ occ := setCellF st.occ nr nc true,
               dirty := mark_neighbors_dirty rows cols st.dirty nr nc,
               ridx := st.ridx + 1 }, s - 1, true)
          else scan_cells rows cols rand row col rest { st with ridx := st.ridx + 1 } s
        else scan_cells rows cols rand row col rest st s
      else scan_cells rows cols rand row col rest st s
    else scan_cells rows cols rand row col rest st s

/-- One particle's share of the erosion/deposition pass: map the particle
position to a bitmap cell and run the neighbourhood scan. -/
def process_particle (rows cols : ℤ) (rand : ℕ → ℚ) (st : ErosionState)
    (p : WaterParticle) : ErosionState × WaterParticle × Bool :=
  let col := truncToInt (p.x / SAND_CELL_SIZE)
  let row := truncToInt (p.y / SAND_CELL_SIZE)
  let res := scan_cells rows cols rand row col scanOffsets st p.sandiness
  (res.1, { p with sandiness := res.2.1 }, res.2.2)

/-- BeachSimulator.process_erosion_deposition over the particle list.
Returns the final state, the particles with updated sandiness, and the
number of particles that performed a pickup or deposit this frame. -/
def process_erosion_deposition (rows cols : ℤ) (rand : ℕ → ℚ) (st : ErosionState) :
    List WaterParticle → ErosionState × List WaterParticle × ℕ
  | [] => (st, [], 0)
  | p :: ps =>
    let r1 := process_particle rows cols rand st p
    let rest := process_erosion_deposition rows cols rand r1.1 ps
    (rest.1, r1.2.1 :: rest.2.1, rest.2.2 + (if r1.2.2 then 1 else 0))

lemma scan_cells_sandiness (rows cols : ℤ) (rand : ℕ → ℚ) (row col : ℤ) :
    ∀ (offs : List (ℤ × ℤ)) (st : ErosionState) (s : ℤ),
      (scan_cells rows cols rand row col offs st s).2.1 = s ∨
      ((scan_cells rows cols rand row col offs st s).2.1 = s + 1 ∧ s < SANDINESS_MAX) ∨
      ((scan_cells rows cols rand row col offs st s).2.1 = s - 1 ∧ SANDINESS_MIN < s) := by
  intro offs
  induction offs with
  | nil => intro st s; left; rfl
  | cons o rest ih =>
    intro st s
    simp only [scan_cells]
    split_ifs with h1 h2 h3 h4 h5 h6 h7
    all_goals
      first
        | exact ih _ _
        | (right; left; exact ⟨rfl, by assumption⟩)
        | (right; right; exact ⟨rfl, by assumption⟩)

/-- Claim C2: the erosion/deposition pass keeps every particle's sandiness
inside the bound 0..10 (pickup is guarded by sandiness < 10, deposit by
sandiness > 0). -/
theorem c2_sandiness_bounded :
    ∀ (rows cols : ℤ) (rand : ℕ → ℚ) (st : ErosionState) (ps : List WaterParticle),
      (∀ p ∈ ps, 0 ≤ p.sandiness ∧ p.sandiness ≤ 10) →
      ∀ q ∈ (process_erosion_deposition rows cols rand st ps).2.1,
        0 ≤ q.sandiness ∧ q.sandiness ≤ 10 := by
  intro rows cols rand st ps
  induction ps generalizing st with
  | nil =>
    intro _ q hq
    simp [process_erosion_deposition] at hq
  | cons p ps ih =>
    intro h q hq
    simp only [process_erosion_deposition, List.mem_cons] at hq
    rcases hq with rfl | hq2
    · have hp := h p (by simp)
      have hs := scan_cells_sandiness rows cols rand
        (truncToInt (p.y / SAND_CELL_SIZE)) (truncToInt (p.x / SAND_CELL_SIZE))
        scanOffsets st p.sandiness
      simp only [process_particle]
      rcases hs with hs | ⟨hs, hlt⟩ | ⟨hs, hgt⟩ <;>
        · simp only [hs, SANDINESS_MAX, SANDINESS_MIN] at *
          constructor <;> omega
    · exact ih _ (fun q2 hq2b => h q2 (by simp [hq2b])) q hq2

/-- Occupancy of a 6 × 6 grid with a single sand cell at (3,3), used as a
concrete erosion scenario. -/
def occC : Occ := fun r c => decide (r = 3) && decide (c = 3)

/-- Concrete erosion state on the 6 × 6 single-cell grid. -/
def st0 : ErosionState := { occ := occC, dirty := ∅, ridx := 0 }

/-- A single water particle sitting at pixel (14,14), bitmap cell (3,3),
carrying no sand. -/
def ps0 : List WaterParticle := [{ x := 14, y := 14, sandiness := 0 }]

/-- A random stream that always draws 0 (below every positive probability). -/
def rand0 : ℕ → ℚ := fun _ => 0

/-- Witness for c2_sandiness_bounded at a concrete erosion run. -/
theorem c2_sandiness_bounded_witness :
    (∀ p ∈ ps0, 0 ≤ p.sandiness ∧ p.sandiness ≤ 10) ∧
      (∀ q ∈ (process_erosion_deposition 6 6 rand0 st0 ps0).2.1,
        0 ≤ q.sandiness ∧ q.sandiness ≤ 10) :=
  ⟨by decide, c2_sandiness_bounded 6 6 rand0 st0 ps0 (by decide)⟩

lemma mark_subset (rows cols : ℤ) (dirty : Finset (ℤ × ℤ)) (r c : ℤ) :
    dirty ⊆ mark_neighbors_dirty rows cols dirty r c :=
  Finset.subset_union_left

lemma mem_mark (rows cols : ℤ) (dirty : Finset (ℤ × ℤ)) (r c : ℤ) (o : ℤ × ℤ)
    (ho : o ∈ eightNeighborOffsets)
    (hin : inBoundsB rows cols (r + o.1) (c + o.2) = true) :
    (r + o.1, c + o.2) ∈ mark_neighbors_dirty rows cols dirty r c := by
  apply Finset.mem_union_right
  rw [List.mem_toFinset, List.mem_filter]
  exact ⟨List.mem_map.mpr ⟨o, ho, rfl⟩, hin⟩

lemma scan_cells_dirty_mono (rows cols : ℤ) (rand : ℕ → ℚ) (row col : ℤ) :
    ∀ (offs : List (ℤ × ℤ)) (st : ErosionState) (s : ℤ),
      st.dirty ⊆ (scan_cells rows cols rand row col offs st s).1.dirty := by
  intro offs
  induction offs with
  | nil => intro st s; exact subset_rfl
  | cons o rest ih =>
    intro st s
    simp only [scan_cells]
    split_ifs with h1 h2 h3 h4 h5 h6 h7
    all_goals first
      | exact mark_subset _ _ _ _ _
      | exact ih st s
      | exact ih { st with ridx := st.ridx + 1 } s

lemma scan_cells_change_marked (rows cols : ℤ) (rand : ℕ → ℚ) (row col : ℤ) :
    ∀ (offs : List (ℤ × ℤ)) (st : ErosionState) (s : ℤ) (r c : ℤ),
      (scan_cells rows cols rand row col offs st s).1.occ r c ≠ st.occ r c →
      ∀ o ∈ eightNeighborOffsets, inBoundsB rows cols (r + o.1) (c + o.2) = true →
        (r + o.1, c + o.2) ∈ (scan_cells rows cols rand row col offs st s).1.dirty := by
  intro offs
  induction offs with
  | nil => intro st s r c hch; exact absurd rfl hch
  | cons o0 rest ih =>
    intro st s r c hch o ho hin
    simp only [scan_cells] at hch ⊢
    split_ifs at hch ⊢ with h1 h2 h3 h4 h5 h6 h7
    all_goals try (exact ih _ _ _ _ hch o ho hin)
    · -- pickup mutation
      have hrc : r = row + o0.1 ∧ c = col + o0.2 := by
        by_contra hne
        exact hch (by simp [setCellF, hne])
      rcases hrc with ⟨rfl, rfl⟩
      exact mem_mark rows cols st.dirty _ _ o ho hin
    · -- deposit mutation
      have hrc : r = row + o0.1 ∧ c = col + o0.2 := by
        by_contra hne
        exact hch (by simp [setCellF, hne])
      rcases hrc with ⟨rfl, rfl⟩
      exact mem_mark rows cols st.dirty _ _ o ho hin

lemma process_particle_dirty_mono (rows cols : ℤ) (rand : ℕ → ℚ)
    (st : ErosionState) (p : WaterParticle) :
    st.dirty ⊆ (process_particle rows cols rand st p).1.dirty :=
  scan_cells_dirty_mono rows cols rand _ _ scanOffsets st p.sandiness

lemma process_particle_change_marked (rows cols : ℤ) (rand : ℕ → ℚ)
    (st : ErosionState) (p : WaterParticle) (r c : ℤ)
    (hch : (process_particle rows cols rand st p).1.occ r c ≠ st.occ r c) :
    ∀ o ∈ eightNeighborOffsets, inBoundsB rows cols (r + o.1) (c + o.2) = true →
      (r + o.1, c + o.2) ∈ (process_particle rows cols rand st p).1.dirty :=
  scan_cells_change_marked rows cols rand _ _ scanOffsets st p.sandiness r c hch

lemma process_erosion_dirty_mono (rows cols : ℤ) (rand : ℕ → ℚ) :
    ∀ (ps : List WaterParticle) (st : ErosionState),
      st.dirty ⊆ (process_erosion_deposition rows cols rand st ps).1.dirty := by
  intro ps
  induction ps with
  | nil => intro st; exact subset_rfl
  | cons p ps ih =>
    intro st
    exact (process_particle_dirty_mono rows cols rand st p).trans (ih _)

lemma process_erosion_change_marked (rows cols : ℤ) (rand : ℕ → ℚ) :
    ∀ (ps : List WaterParticle) (st : ErosionState) (r c : ℤ),
      (process_erosion_deposition rows cols rand st ps).1.occ r c ≠ st.occ r c →
      ∀ o ∈ eightNeighborOffsets, inBoundsB rows cols (r + o.1) (c + o.2) = true →
        (r + o.1, c + o.2) ∈ (process_erosion_deposition rows cols rand st ps).1.dirty := by
  intro ps
  induction ps with
  | nil => intro st r c hch; exact absurd rfl hch
  | cons p ps ih =>
    intro st r c hch o ho hin
    by_cases h1 : (process_particle rows cols rand st p).1.occ r c = st.occ r c
    · have hch2 : (process_erosion_deposition rows cols rand
          (process_particle rows cols rand st p).1 ps).1.occ r c ≠
          (process_particle rows cols rand st p).1.occ r c := by
        rw [h1]; exact hch
      exact ih _ r c hch2 o ho hin
    · exact process_erosion_dirty_mono rows cols rand ps _
        (process_particle_change_marked rows cols rand st p r c h1 o ho hin)

/-- One dirty cell's share of BeachSimulator.process_sand_gravity: skip
empty cells; for an unstable occupied cell clear the old position, mark
its neighbours dirty, and re-add the cell at the computed destination
(marking that neighbourhood too) when the destination is inside the grid.
The accumulator is (bitmap, dirty set, sand_changed flag). -/
def apply_gravity_cell (rows cols : ℤ) (acc : Occ × Finset (ℤ × ℤ) × Bool)
    (rc : ℤ × ℤ) : Occ × Finset (ℤ × ℤ) × Bool :=
  if acc.1 rc.1 rc.2 = false then acc
  else
    let res := check_sand_stability rows cols acc.1 rc.1 rc.2
    if res.1 then acc
    else
      let occ1 := setCellF acc.1 rc.1 rc.2 false
      let d1 := mark_neighbors_dirty rows cols acc.2.1 rc.1 rc.2
      if inBoundsB rows cols res.2.1 res.2.2 then
        (setCellF occ1 res.2.1 res.2.2 true,
          mark_neighbors_dirty rows cols d1 res.2.1 res.2.2, true)
      else (occ1, d1, true)

/-- BeachSimulator.process_sand_gravity: the dirty set is cleared up front,
then the previously dirty cells are processed in order.  The Python code
sorts them by descending row (ties in the set's iteration order); the
sorted list is taken here as the `cells` argument. -/
def run_gravity_pass (rows cols : ℤ) (occ : Occ) (cells : List (ℤ × ℤ)) :
    Occ × Finset (ℤ × ℤ) × Bool :=
  cells.foldl (apply_gravity_cell rows cols) (occ, ∅, false)

lemma apply_gravity_cell_dirty_mono (rows cols : ℤ)
    (acc : Occ × Finset (ℤ × ℤ) × Bool) (rc : ℤ × ℤ) :
    acc.2.1 ⊆ (apply_gravity_cell rows cols acc rc).2.1 := by
  simp only [apply_gravity_cell]
  split_ifs with h1 h2 h3
  · exact subset_rfl
  · exact subset_rfl
  · exact (mark_subset _ _ _ _ _).trans (mark_subset _ _ _ _ _)
  · exact mark_subset _ _ _ _ _

lemma apply_gravity_cell_change_marked (rows cols : ℤ)
    (acc : Occ × Finset (ℤ × ℤ) × Bool) (rc : ℤ × ℤ) (r c : ℤ)
    (hch : (apply_gravity_cell rows cols acc rc).1 r c ≠ acc.1 r c) :
    ∀ o ∈ eightNeighborOffsets, inBoundsB rows cols (r + o.1) (c + o.2) = true →
      (r + o.1, c + o.2) ∈ (apply_gravity_cell rows cols acc rc).2.1 := by
  intro o ho hin
  simp only [apply_gravity_cell] at hch ⊢
  split_ifs at hch ⊢ with h1 h2 h3
  · exact absurd rfl hch
  · exact absurd rfl hch
  · -- moved: old cell cleared, destination set
    set res := check_sand_stability rows cols acc.1 rc.1 rc.2 with hres
    by_cases hdest : r = res.2.1 ∧ c = res.2.2
    · rcases hdest with ⟨rfl, rfl⟩
      exact mem_mark rows cols _ _ _ o ho hin
    · have hold : r = rc.1 ∧ c = rc.2 := by
        by_contra hne
        exact hch (by simp [setCellF, hdest, hne])
      rcases hold with ⟨rfl, rfl⟩
      exact (mark_subset _ _ _ _ _)
        (mem_mark rows cols acc.2.1 _ _ o ho hin)
  · -- destination off-grid: only the old cell was cleared
    have hold : r = rc.1 ∧ c = rc.2 := by
      by_contra hne
      exact hch (by simp [setCellF, hne])
    rcases hold with ⟨rfl, rfl⟩
    exact mem_mark rows cols acc.2.1 _ _ o ho hin

lemma gravity_fold_dirty_mono (rows cols : ℤ) :
    ∀ (cells : List (ℤ × ℤ)) (acc : Occ × Finset (ℤ × ℤ) × Bool),
      acc.2.1 ⊆ (cells.foldl (apply_gravity_cell rows cols) acc).2.1 := by
  intro cells
  induction cells with
  | nil => intro acc; exact subset_rfl
  | cons rc cells ih =>
    intro acc
    exact (apply_gravity_cell_dirty_mono rows cols acc rc).trans (ih _)

lemma gravity_fold_change_marked (rows cols : ℤ) :
    ∀ (cells : List (ℤ × ℤ)) (acc : Occ × Finset (ℤ × ℤ) × Bool) (r c : ℤ),
      (cells.foldl (apply_gravity_cell rows cols) acc).1 r c ≠ acc.1 r c →
      ∀ o ∈ eightNeighborOffsets, inBoundsB rows cols (r + o.1) (c + o.2) = true →
        (r + o.1, c + o.2) ∈ (cells.foldl (apply_gravity_cell rows cols) acc).2.1 := by
  intro cells
  induction cells with
  | nil => intro acc r c hch; exact absurd rfl hch
  | cons rc cells ih =>
    intro acc r c hch o ho hin
    by_cases h1 : (apply_gravity_cell rows cols acc rc).1 r c = acc.1 r c
    · have hch2 : (cells.foldl (apply_gravity_cell rows cols)
          (apply_gravity_cell rows cols acc rc)).1 r c ≠
          (apply_gravity_cell rows cols acc rc).1 r c := by
        rw [h1]; exact hch
      exact ih _ r c hch2 o ho hin
    · exact gravity_fold_dirty_mono rows cols cells _
        (apply_gravity_cell_change_marked rows cols acc rc r c h1 o ho hin)

/-- Claim C3, counterexample: in the concrete erosion run the particle
picks up the sand cell (3,3) — its occupancy changes — yet the dirty set
afterwards does not contain (3,3): mark_neighbors_dirty adds only the 8
neighbours, never the mutated cell itself. -/
theorem c3_counterexample :
    (process_erosion_deposition 6 6 rand0 st0 ps0).1.occ 3 3 ≠ st0.occ 3 3 ∧
      ((3 : ℤ), (3 : ℤ)) ∉ (process_erosion_deposition 6 6 rand0 st0 ps0).1.dirty := by
  with_unfolding_all decide

/-- Claim C3 (amended): after the erosion/deposition pass, and likewise
after a relaxation pass (relative to the bitmap it started from), the dirty
set contains every in-range cell among the 8 neighbours of every cell whose
occupancy changed; the changed cell itself need not be present. -/
theorem c3_dirty_set_covers_changes :
    ∀ (rows cols : ℤ) (rand : ℕ → ℚ) (st : ErosionState) (ps : List WaterParticle)
      (occ : Occ) (cells : List (ℤ × ℤ)) (r c : ℤ) (o : ℤ × ℤ),
      o ∈ eightNeighborOffsets → inBoundsB rows cols (r + o.1) (c + o.2) = true →
      ((process_erosion_deposition rows cols rand st ps).1.occ r c ≠ st.occ r c →
        (r + o.1, c + o.2) ∈ (process_erosion_deposition rows cols rand st ps).1.dirty) ∧
      ((run_gravity_pass rows cols occ cells).1 r c ≠ occ r c →
        (r + o.1, c + o.2) ∈ (run_gravity_pass rows cols occ cells).2.1) := by
  intro rows cols rand st ps occ cells r c o ho hin
  constructor
  · intro hch
    exact process_erosion_change_marked rows cols rand ps st r c hch o ho hin
  · intro hch
    exact gravity_fold_change_marked rows cols cells _ r c hch o ho hin

/-- Witness for c3_dirty_set_covers_changes at the concrete erosion run. -/
theorem c3_dirty_set_covers_changes_witness :
    (((-1 : ℤ), (-1 : ℤ)) ∈ eightNeighborOffsets ∧
      inBoundsB 6 6 (3 + (-1 : ℤ)) (3 + (-1 : ℤ)) = true) ∧
      (((process_erosion_deposition 6 6 rand0 st0 ps0).1.occ 3 3 ≠ st0.occ 3 3 →
        ((3 : ℤ) + (-1 : ℤ), (3 : ℤ) + (-1 : ℤ)) ∈
          (process_erosion_deposition 6 6 rand0 st0 ps0).1.dirty) ∧
      ((run_gravity_pass 6 6 occC []).1 3 3 ≠ occC 3 3 →
        ((3 : ℤ) + (-1 : ℤ), (3 : ℤ) + (-1 : ℤ)) ∈ (run_gravity_pass 6 6 occC []).2.1)) :=
  ⟨⟨by decide, by decide⟩,
    c3_dirty_set_covers_changes 6 6 rand0 st0 ps0 occC [] 3 3 (-1, -1)
      (by decide) (by decide)⟩

lemma sandCount_setCellF (rows cols : ℤ) (occ : Occ) (r c : ℤ) (b : Bool)
    (hin : inBoundsB rows cols r c = true) :
    sandCount rows cols (setCellF occ r c b) + (if occ r c then 1 else 0) =
      sandCount rows cols occ + (if b then 1 else 0) := by
  obtain ⟨hr0, hr1, hc0, hc1⟩ := inBoundsB_iff.mp hin
  have hp0 : (r.toNat, c.toNat) ∈ Finset.range rows.toNat ×ˢ Finset.range cols.toNat := by
    simp only [Finset.mem_product, Finset.mem_range]
    omega
  have e1 := Finset.add_sum_erase (Finset.range rows.toNat ×ˢ Finset.range cols.toNat)
    (fun p => if occ (p.1 : ℤ) (p.2 : ℤ) then (1 : ℕ) else 0) hp0
  have e2 := Finset.add_sum_erase (Finset.range rows.toNat ×ˢ Finset.range cols.toNat)
    (fun p => if setCellF occ r c b (p.1 : ℤ) (p.2 : ℤ) then (1 : ℕ) else 0) hp0
  have hcr : ((r.toNat : ℤ)) = r := Int.toNat_of_nonneg hr0
  have hcc : ((c.toNat : ℤ)) = c := Int.toNat_of_nonneg hc0
  have hsum : ∑ p ∈ (Finset.range rows.toNat ×ˢ Finset.range cols.toNat).erase
        (r.toNat, c.toNat), (if setCellF occ r c b (p.1 : ℤ) (p.2 : ℤ) then (1 : ℕ) else 0) =
      ∑ p ∈ (Finset.range rows.toNat ×ˢ Finset.range cols.toNat).erase
        (r.toNat, c.toNat), (if occ (p.1 : ℤ) (p.2 : ℤ) then (1 : ℕ) else 0) := by
    refine Finset.sum_congr rfl ?_
    intro p hp
    have hpne := Finset.ne_of_mem_erase hp
    have hne2 : ¬((p.1 : ℤ) = r ∧ (p.2 : ℤ) = c) := by
      rintro ⟨hh1, hh2⟩
      apply hpne
      have hq1 : p.1 = r.toNat := by omega
      have hq2 : p.2 = c.toNat := by omega
      cases p
      simp only at hq1 hq2
      rw [hq1, hq2]
    simp [setCellF, hne2]
  rw [sandCount, sandCount, ← e1, ← e2, hsum]
  simp only [hcr, hcc]
  have hdiag : (if setCellF occ r c b r c then (1 : ℕ) else 0) = (if b then 1 else 0) := by
    simp [setCellF]
  rw [hdiag]
  ring

lemma scan_cells_mutation (rows cols : ℤ) (rand : ℕ → ℚ) (row col : ℤ) :
    ∀ (offs : List (ℤ × ℤ)) (st : ErosionState) (s : ℤ),
      ((scan_cells rows cols rand row col offs st s).2.2 = false ∧
        (scan_cells rows cols rand row col offs st s).1.occ = st.occ) ∨
      ((scan_cells rows cols rand row col offs st s).2.2 = true ∧
        ∃ r c, inBoundsB rows cols r c = true ∧
          ((st.occ r c = true ∧
            (scan_cells rows cols rand row col offs st s).1.occ = setCellF st.occ r c false) ∨
          (st.occ r c = false ∧
            (scan_cells rows cols rand row col offs st s).1.occ = setCellF st.occ r c true))) := by
  intro offs
  induction offs with
  | nil => intro st s; exact Or.inl ⟨rfl, rfl⟩
  | cons o rest ih =>
    intro st s
    simp only [scan_cells]
    split_ifs with h1 h2 h3 h4 h5 h6 h7
    · -- pickup
      refine Or.inr ⟨rfl, row + o.1, col + o.2, h1, Or.inl ⟨?_, rfl⟩⟩
      have h2b := h2
      rw [Bool.and_eq_true] at h2b
      exact h2b.1
    · exact ih { st with ridx := st.ridx + 1 } s
    · exact ih st s
    · -- deposit
      refine Or.inr ⟨rfl, row + o.1, col + o.2, h1, Or.inr ⟨?_, rfl⟩⟩
      have h5b := h5
      rw [Bool.and_eq_true] at h5b
      simpa using h5b.1
    · exact ih { st with ridx := st.ridx + 1 } s
    · exact ih st s
    · exact ih st s
    · exact ih st s

lemma process_particle_no_action (rows cols : ℤ) (rand : ℕ → ℚ)
    (st : ErosionState) (p : WaterParticle)
    (h : (process_particle rows cols rand st p).2.2 = false) :
    (process_particle rows cols rand st p).1.occ = st.occ := by
  rcases scan_cells_mutation rows cols rand (truncToInt (p.y / SAND_CELL_SIZE))
    (truncToInt (p.x / SAND_CELL_SIZE)) scanOffsets st p.sandiness with
    ⟨_, hocc⟩ | ⟨ht, _⟩
  · exact hocc
  · exact absurd (by simpa [process_particle] using h) (by simp [ht])

lemma process_particle_count_bound (rows cols : ℤ) (rand : ℕ → ℚ)
    (st : ErosionState) (p : WaterParticle) :
    |(sandCount rows cols (process_particle rows cols rand st p).1.occ : ℤ) -
      (sandCount rows cols st.occ : ℤ)| ≤
      (if (process_particle rows cols rand st p).2.2 then 1 else 0) := by
  rcases scan_cells_mutation rows cols rand (truncToInt (p.y / SAND_CELL_SIZE))
    (truncToInt (p.x / SAND_CELL_SIZE)) scanOffsets st p.sandiness with
    ⟨hf, hocc⟩ | ⟨ht, r, c, hin, hcase⟩
  · have hocc2 : (process_particle rows cols rand st p).1.occ = st.occ := hocc
    rw [hocc2]
    simp only [sub_self, abs_zero]
    split_ifs <;> omega
  · have ht2 : (process_particle rows cols rand st p).2.2 = true := ht
    rw [ht2, if_pos rfl]
    rcases hcase with ⟨hv, hset⟩ | ⟨hv, hset⟩
    · have hcnt := sandCount_setCellF rows cols st.occ r c false hin
      rw [hv, if_pos rfl, if_neg (by simp)] at hcnt
      have hset2 : (process_particle rows cols rand st p).1.occ =
        setCellF st.occ r c false := hset
      rw [hset2]
      rw [abs_le]
      omega
    · have hcnt := sandCount_setCellF rows cols st.occ r c true hin
      rw [hv, if_neg (by simp), if_pos rfl] at hcnt
      have hset2 : (process_particle rows cols rand st p).1.occ =
        setCellF st.occ r c true := hset
      rw [hset2]
      rw [abs_le]
      omega

/-- Claim C5: each particle causes at most one grid mutation per frame (a
particle that performed no action leaves the bitmap untouched), so over a
whole erosion/deposition pass the occupied-cell count changes by at most
the number of particles that acted. -/
theorem c5_at_most_one_mutation_per_particle :
    ∀ (rows cols : ℤ) (rand : ℕ → ℚ) (st : ErosionState) (ps : List WaterParticle),
      (∀ p : WaterParticle, (process_particle rows cols rand st p).2.2 = false →
        (process_particle rows cols rand st p).1.occ = st.occ) ∧
      |(sandCount rows cols (process_erosion_deposition rows cols rand st ps).1.occ : ℤ) -
        (sandCount rows cols st.occ : ℤ)| ≤
        ((process_erosion_deposition rows cols rand st ps).2.2 : ℤ) := by
  intro rows cols rand st ps
  constructor
  · intro p h
    exact process_particle_no_action rows cols rand st p h
  · induction ps generalizing st with
    | nil => simp [process_erosion_deposition]
    | cons p ps ih =>
      simp only [process_erosion_deposition]
      have h1 := process_particle_count_bound rows cols rand st p
      have h2 := ih (process_particle rows cols rand st p).1
      have htri := abs_sub_le
        (sandCount rows cols (process_erosion_deposition rows cols rand
          (process_particle rows cols rand st p).1 ps).1.occ : ℤ)
        (sandCount rows cols (process_particle rows cols rand st p).1.occ : ℤ)
        (sandCount rows cols st.occ : ℤ)
      push_cast
      push_cast at h2
      split_ifs at h1 ⊢ with hact
      · omega
      · omega

lemma get_pixel_false {rows cols : ℤ} {occ : Occ} {r c dr dc : ℤ}
    (h : get_pixel rows cols occ r c dr dc = false) :
    inBoundsB rows cols (r + dr) (c + dc) = true ∧ occ (r + dr) (c + dc) = false := by
  by_cases hb : inBoundsB rows cols (r + dr) (c + dc) = true
  · exact ⟨hb, by simpa [get_pixel, hb] using h⟩
  · exact absurd h (by simp [get_pixel, hb])

lemma unstable_dest (rows cols : ℤ) (occ : Occ) (r c : ℤ)
    (h : (check_sand_stability rows cols occ r c).1 = false) :
    (check_sand_stability rows cols occ r c).2.1 = r + 1 ∧
    inBoundsB rows cols (check_sand_stability rows cols occ r c).2.1
      (check_sand_stability rows cols occ r c).2.2 = true ∧
    occ (check_sand_stability rows cols occ r c).2.1
      (check_sand_stability rows cols occ r c).2.2 = false := by
  have e3 : c + (0 : ℤ) = c := by ring
  have e1 : c + (-1 : ℤ) = c - 1 := by ring
  unfold check_sand_stability at h ⊢
  by_cases h1 : occ r c = false
  · rw [if_pos h1] at h
    exact absurd h (by simp)
  · by_cases h2 : rows - 1 ≤ r
    · rw [if_neg h1, if_pos h2] at h
      exact absurd h (by simp)
    · rw [if_neg h1, if_neg h2] at h ⊢
      simp only at h ⊢
      split_ifs at h ⊢ with hc1 hc2 hc3 hc4
      · -- fall straight down
        have hp2 : get_pixel rows cols occ r c 1 0 = false := by simpa using hc4
        obtain ⟨hb, ho⟩ := get_pixel_false hp2
        rw [e3] at hb ho
        exact ⟨rfl, hb, ho⟩
      · -- slide down-left
        have hp2 : get_pixel rows cols occ r c 1 0 = true := by
          rcases Bool.eq_false_or_eq_true (get_pixel rows cols occ r c 1 0) with ht | hf
          · exact ht
          · exact absurd (by simp [hf]) hc4
        have hp1 : get_pixel rows cols occ r c 1 (-1) = false := by
          rcases Bool.eq_false_or_eq_true (get_pixel rows cols occ r c 1 (-1)) with ht | hf
          · exact absurd (by simp [hp2, ht]) hc1
          · exact hf
        obtain ⟨hb, ho⟩ := get_pixel_false hp1
        rw [e1] at hb ho
        exact ⟨rfl, hb, ho⟩

/-- Claim C9: for an unstable occupied in-range cell processed by the
relaxation pass, if the computed destination is inside the grid it is empty
at the moment of the move and the move leaves the occupied-cell count
unchanged, while an out-of-grid destination would clear the cell without
re-adding it and strictly decrease the count (this second case is
unreachable: the destination of an unstable cell is always in-grid). -/
theorem c9_unstable_cell_moves :
    ∀ (rows cols : ℤ) (occ : Occ) (dirty : Finset (ℤ × ℤ)) (changed : Bool) (r c : ℤ),
      inBoundsB rows cols r c = true → occ r c = true →
      (check_sand_stability rows cols occ r c).1 = false →
      ((inBoundsB rows cols (check_sand_stability rows cols occ r c).2.1
          (check_sand_stability rows cols occ r c).2.2 = true →
        occ (check_sand_stability rows cols occ r c).2.1
          (check_sand_stability rows cols occ r c).2.2 = false ∧
        sandCount rows cols (apply_gravity_cell rows cols (occ, dirty, changed) (r, c)).1 =
          sandCount rows cols occ) ∧
      (inBoundsB rows cols (check_sand_stability rows cols occ r c).2.1
          (check_sand_stability rows cols occ r c).2.2 = false →
        (apply_gravity_cell rows cols (occ, dirty, changed) (r, c)).1 =
          setCellF occ r c false ∧
        sandCount rows cols (apply_gravity_cell rows cols (occ, dirty, changed) (r, c)).1 <
          sandCount rows cols occ)) := by
  intro rows cols occ dirty changed r c hin hocc hunst
  obtain ⟨hrow, hbdest, hodest⟩ := unstable_dest rows cols occ r c hunst
  constructor
  · intro hbd
    refine ⟨hodest, ?_⟩
    have happ : (apply_gravity_cell rows cols (occ, dirty, changed) (r, c)).1 =
        setCellF (setCellF occ r c false) (check_sand_stability rows cols occ r c).2.1
          (check_sand_stability rows cols occ r c).2.2 true := by
      simp only [apply_gravity_cell]
      rw [if_neg (by simp [hocc]), if_neg (by simp [hunst]), if_pos hbdest]
    rw [happ]
    have hne : ¬((check_sand_stability rows cols occ r c).2.1 = r ∧
        (check_sand_stability rows cols occ r c).2.2 = c) := by
      rintro ⟨hh, _⟩
      rw [hrow] at hh
      omega
    have hmid : setCellF occ r c false (check_sand_stability rows cols occ r c).2.1
        (check_sand_stability rows cols occ r c).2.2 = false := by
      simp only [setCellF, if_neg hne]
      exact hodest
    have h1 : sandCount rows cols (setCellF occ r c false) + 1 = sandCount rows cols occ := by
      have hc := sandCount_setCellF rows cols occ r c false hin
      rw [hocc] at hc
      simpa using hc
    have h2 : sandCount rows cols (setCellF (setCellF occ r c false)
        (check_sand_stability rows cols occ r c).2.1
        (check_sand_stability rows cols occ r c).2.2 true) =
        sandCount rows cols (setCellF occ r c false) + 1 := by
      have hc := sandCount_setCellF rows cols (setCellF occ r c false)
        (check_sand_stability rows cols occ r c).2.1
        (check_sand_stability rows cols occ r c).2.2 true hbdest
      rw [hmid] at hc
      simpa using hc
    omega
  · intro hbd
    exact absurd hbdest (by simp [hbd])

/-- Occupancy of a 3 × 3 grid with one isolated sand cell at (0,1). -/
def occD : Occ := fun r c => decide (r = 0) && decide (c = 1)

/-- Witness for c9_unstable_cell_moves: the isolated cell (0,1) is unstable
and falls straight down to the in-grid empty cell (1,1). -/
theorem c9_unstable_cell_moves_witness :
    inBoundsB 3 3 0 1 = true ∧ occD 0 1 = true ∧
      (check_sand_stability 3 3 occD 0 1).1 = false ∧
      (((inBoundsB 3 3 (check_sand_stability 3 3 occD 0 1).2.1
          (check_sand_stability 3 3 occD 0 1).2.2 = true →
        occD (check_sand_stability 3 3 occD 0 1).2.1
          (check_sand_stability 3 3 occD 0 1).2.2 = false ∧
        sandCount 3 3 (apply_gravity_cell 3 3 (occD, ∅, false) (0, 1)).1 =
          sandCount 3 3 occD) ∧
      (inBoundsB 3 3 (check_sand_stability 3 3 occD 0 1).2.1
          (check_sand_stability 3 3 occD 0 1).2.2 = false →
        (apply_gravity_cell 3 3 (occD, ∅, false) (0, 1)).1 = setCellF occD 0 1 false ∧
        sandCount 3 3 (apply_gravity_cell 3 3 (occD, ∅, false) (0, 1)).1 <
          sandCount 3 3 occD))) :=
  ⟨by decide, by decide, by decide,
    c9_unstable_cell_moves 3 3 occD ∅ false 0 1 (by decide) (by decide) (by decide)⟩

/-- Claim C10: the edge test's first bitmap access has no bounds check of
its own (the Option-valued embedding returns none off-grid), but under the
in-range filter that every erosion call site applies first, the checked
edge test always succeeds and agrees with the total wrapper used there. -/
theorem c10_edge_test_safe_at_call_sites :
    ∀ (rows cols : ℤ) (occ : Occ) (r c : ℤ),
      inBoundsB rows cols r c = true →
      is_sand_edge_checked rows cols occ r c = some (is_sand_edge rows cols occ r c) := by
  intro rows cols occ r c h
  unfold is_sand_edge is_sand_edge_checked
  rw [if_pos h]
  split_ifs with ho <;> rfl

/-- Witness for c10_edge_test_safe_at_call_sites at a concrete cell. -/
theorem c10_edge_test_safe_at_call_sites_witness :
    inBoundsB 2 2 1 0 = true ∧
      is_sand_edge_checked 2 2 occB 1 0 = some (is_sand_edge 2 2 occB 1 0) :=
  ⟨by decide, c10_edge_test_safe_at_call_sites 2 2 occB 1 0 (by decide)⟩

/-- Water particle radius (PARTICLE_RADIUS). -/
def PARTICLE_RADIUS : ℚ := 5 / 2

/-- The while loop of the safety clamp that walks surface_row upward while
the cell above is occupied: find_surface_row occ col row returns the top
row of the contiguous occupied run containing row. -/
def find_surface_row (occ : Occ) (col : ℤ) : ℕ → ℕ
  | 0 => 0
  | n + 1 => if occ (n : ℤ) col then find_surface_row occ col n else n + 1

/-- The per-particle safety clamp at the end of BeachSimulator.update:
a particle whose bitmap cell is in range and occupied is teleported to just
above the top of the local contiguous sand run, and a downward (positive y)
velocity is replaced by 30 percent of its magnitude upward. -/
def clamp_particle (rows cols : ℤ) (occ : Occ) (x y vx vy : ℚ) : ℚ × ℚ × ℚ × ℚ :=
  let col := truncToInt (x / SAND_CELL_SIZE)
  let row := truncToInt (y / SAND_CELL_SIZE)
  if inBoundsB rows cols row col && occ row col then
    let sr := find_surface_row occ col row.toNat
    let newY := (sr : ℚ) * SAND_CELL_SIZE - PARTICLE_RADIUS - 1
    if 0 < vy then (x, newY, vx, -vy * (3 / 10))
    else (x, newY, vx, vy)
  else (x, y, vx, vy)

/-- Topmost occupied row of a column, scanning from row 0 downward (the
quantity claim C8 says the clamp teleports above). -/
def topmost_occupied_row (rows : ℤ) (occ : Occ) (col : ℤ) : Option ℕ :=
  (List.range rows.toNat).find? (fun r => occ (r : ℤ) col)

/-- Occupancy of an 8 × 1 grid with sand at rows 0 and 5 of column 0
(a floating block above a gap above a grounded cell). -/
def cxOccE : Occ := fun r c => decide (c = 0) && (decide (r = 0) || decide (r = 5))

/-- Claim C8, counterexample: a particle inside cell (5,0) is clamped to
just above row 5 (the top of its contiguous run), not above row 0, the
topmost occupied cell of its column. -/
theorem c8_counterexample :
    (clamp_particle 8 1 cxOccE 1 21 0 0).2.1 = 33 / 2 ∧
      topmost_occupied_row 8 cxOccE 0 = some 0 ∧
      ((33 : ℚ) / 2 ≠ (0 : ℚ) * SAND_CELL_SIZE - PARTICLE_RADIUS - 1) := by
  with_unfolding_all decide

lemma find_surface_row_spec (occ : Occ) (col : ℤ) :
    ∀ n : ℕ, occ (n : ℤ) col = true →
      find_surface_row occ col n ≤ n ∧
      occ ((find_surface_row occ col n : ℕ) : ℤ) col = true ∧
      (find_surface_row occ col n = 0 ∨
        occ (((find_surface_row occ col n : ℕ) : ℤ) - 1) col = false) ∧
      ∀ k : ℕ, find_surface_row occ col n ≤ k → k ≤ n → occ (k : ℤ) col = true := by
  intro n
  induction n with
  | zero =>
    intro h
    refine ⟨le_refl 0, h, Or.inl rfl, ?_⟩
    intro k _ hk2
    have hk : k = 0 := by omega
    rw [hk]
    exact h
  | succ n ih =>
    intro h
    simp only [find_surface_row]
    by_cases ho : occ (n : ℤ) col = true
    · rw [if_pos ho]
      obtain ⟨h1, h2, h3, h4⟩ := ih ho
      refine ⟨by omega, h2, h3, ?_⟩
      intro k hk1 hk2
      by_cases hkn : k ≤ n
      · exact h4 k hk1 hkn
      · have hk : k = n + 1 := by omega
        rw [hk]
        exact_mod_cast h
    · rw [if_neg ho]
      refine ⟨le_refl _, by exact_mod_cast h, Or.inr ?_, ?_⟩
      · have he : (((n + 1 : ℕ) : ℤ)) - 1 = (n : ℤ) := by push_cast; ring
        rw [he]
        simpa using ho
      · intro k h1 h2
        have hk : k = n + 1 := by omega
        rw [hk]
        exact_mod_cast h

/-- Top of the contiguous occupied run that the clamp walks to, for a
particle at pixel position (x, y). -/
def clamp_run_top (occ : Occ) (x y : ℚ) : ℕ :=
  find_surface_row occ (truncToInt (x / SAND_CELL_SIZE))
    (truncToInt (y / SAND_CELL_SIZE)).toNat

/-- Claim C8 (amended): a particle inside an occupied in-range cell is
teleported to just above the top of the contiguous occupied run containing
its cell (which is below any higher sand separated by a gap), keeping x;
a downward velocity (positive y component) is replaced by 30 percent of
its magnitude pointing upward — damped and nonzero, not zeroed. -/
theorem c8_clamp_teleports_to_local_run_top :
    ∀ (rows cols : ℤ) (occ : Occ) (x y vx vy : ℚ),
      inBoundsB rows cols (truncToInt (y / SAND_CELL_SIZE))
        (truncToInt (x / SAND_CELL_SIZE)) = true →
      occ (truncToInt (y / SAND_CELL_SIZE)) (truncToInt (x / SAND_CELL_SIZE)) = true →
      clamp_particle rows cols occ x y vx vy =
        (x, ((clamp_run_top occ x y : ℕ) : ℚ) * SAND_CELL_SIZE - PARTICLE_RADIUS - 1,
          vx, if 0 < vy then -vy * (3 / 10) else vy) ∧
      ((clamp_run_top occ x y : ℕ) : ℤ) ≤ truncToInt (y / SAND_CELL_SIZE) ∧
      occ ((clamp_run_top occ x y : ℕ) : ℤ) (truncToInt (x / SAND_CELL_SIZE)) = true ∧
      (clamp_run_top occ x y = 0 ∨
        occ (((clamp_run_top occ x y : ℕ) : ℤ) - 1)
          (truncToInt (x / SAND_CELL_SIZE)) = false) ∧
      (∀ k : ℕ, clamp_run_top occ x y ≤ k →
        (k : ℤ) ≤ truncToInt (y / SAND_CELL_SIZE) →
        occ (k : ℤ) (truncToInt (x / SAND_CELL_SIZE)) = true) ∧
      (0 < vy → -vy * (3 / 10) < 0 ∧ |(-vy * (3 / 10))| < vy) := by
  intro rows cols occ x y vx vy hin hocc
  have hr0 : 0 ≤ truncToInt (y / SAND_CELL_SIZE) := (inBoundsB_iff.mp hin).1
  have hcast : (((truncToInt (y / SAND_CELL_SIZE)).toNat : ℕ) : ℤ) =
      truncToInt (y / SAND_CELL_SIZE) := Int.toNat_of_nonneg hr0
  have hocc2 : occ ((((truncToInt (y / SAND_CELL_SIZE)).toNat : ℕ)) : ℤ)
      (truncToInt (x / SAND_CELL_SIZE)) = true := by
    rw [hcast]
    exact hocc
  obtain ⟨h1, h2, h3, h4⟩ := find_surface_row_spec occ (truncToInt (x / SAND_CELL_SIZE))
    (truncToInt (y / SAND_CELL_SIZE)).toNat hocc2
  refine ⟨?_, ?_, h2, h3, ?_, ?_⟩
  · unfold clamp_particle
    rw [if_pos (by simp [hin, hocc])]
    split_ifs <;> rfl
  · calc ((clamp_run_top occ x y : ℕ) : ℤ)
        ≤ (((truncToInt (y / SAND_CELL_SIZE)).toNat : ℕ) : ℤ) := by exact_mod_cast h1
      _ = truncToInt (y / SAND_CELL_SIZE) := hcast
  · intro k hk1 hk2
    apply h4 k hk1
    omega
  · intro hv
    constructor
    · nlinarith
    · rw [abs_of_neg (by nlinarith)]
      nlinarith

/-- Occupancy of a 4 × 1 grid with sand at rows 2 and 3 of column 0. -/
def occF : Occ := fun r c => decide (c = 0) && (decide (r = 2) || decide (r = 3))

/-- Witness for c8_clamp_teleports_to_local_run_top: a particle at pixel
(0, 9), inside occupied cell (2, 0), with downward velocity 1. -/
theorem c8_clamp_teleports_to_local_run_top_witness :
    inBoundsB 4 1 (truncToInt (9 / SAND_CELL_SIZE)) (truncToInt (0 / SAND_CELL_SIZE)) = true ∧
      occF (truncToInt (9 / SAND_CELL_SIZE)) (truncToInt (0 / SAND_CELL_SIZE)) = true ∧
      (clamp_particle 4 1 occF 0 9 0 1 =
        (0, ((clamp_run_top occF 0 9 : ℕ) : ℚ) * SAND_CELL_SIZE - PARTICLE_RADIUS - 1,
          0, if 0 < (1 : ℚ) then -(1 : ℚ) * (3 / 10) else 1) ∧
      ((clamp_run_top occF 0 9 : ℕ) : ℤ) ≤ truncToInt (9 / SAND_CELL_SIZE) ∧
      occF ((clamp_run_top occF 0 9 : ℕ) : ℤ) (truncToInt (0 / SAND_CELL_SIZE)) = true ∧
      (clamp_run_top occF 0 9 = 0 ∨
        occF (((clamp_run_top occF 0 9 : ℕ) : ℤ) - 1)
          (truncToInt (0 / SAND_CELL_SIZE)) = false) ∧
      (∀ k : ℕ, clamp_run_top occF 0 9 ≤ k →
        (k : ℤ) ≤ truncToInt (9 / SAND_CELL_SIZE) →
        occF (k : ℤ) (truncToInt (0 / SAND_CELL_SIZE)) = true) ∧
      (0 < (1 : ℚ) → -(1 : ℚ) * (3 / 10) < 0 ∧ |(-(1 : ℚ) * (3 / 10))| < 1)) :=
  ⟨by with_unfolding_all decide, by with_unfolding_all decide,
    c8_clamp_teleports_to_local_run_top 4 1 occF 0 9 0 1
      (by with_unfolding_all decide) (by with_unfolding_all decide)⟩

/-- Wall position computed by BeachSimulator.update_wave_generator:
base plus the fast and slow sinusoidal offsets (the code forms the slow
frequency as 1 / slow_period). -/
noncomputable def wave_position (base fastAmp fastFreq slowAmp slowPeriod t : ℝ) : ℝ :=
  base + (fastAmp * Real.sin (2 * Real.pi * fastFreq * t) +
    slowAmp * Real.sin (2 * Real.pi * (1 / slowPeriod) * t))

/-- Wall velocity computed by BeachSimulator.update_wave_generator: the sum
of the two cosine terms, each scaled by amplitude times 2 pi times its
frequency. -/
noncomputable def wave_velocity (fastAmp fastFreq slowAmp slowPeriod t : ℝ) : ℝ :=
  fastAmp * 2 * Real.pi * fastFreq * Real.cos (2 * Real.pi * fastFreq * t) +
    slowAmp * 2 * Real.pi * (1 / slowPeriod) * Real.cos (2 * Real.pi * (1 / slowPeriod) * t)

/-- Claim C6: the wave driver's position matches the specified dual-sinusoid
formula, its velocity is the analytic time-derivative of the position, and
at the scenario parameters (base 0, fastAmp 40, fastFreq 1/4, slowAmp 0,
t = 2) the position offset is 0 and the velocity is -20 pi. -/
theorem c6_wave_driver_formula_and_derivative :
    ∀ (base fastAmp fastFreq slowAmp slowPeriod t : ℝ),
      HasDerivAt (fun u => wave_position base fastAmp fastFreq slowAmp slowPeriod u)
        (wave_velocity fastAmp fastFreq slowAmp slowPeriod t) t ∧
      wave_position base fastAmp fastFreq slowAmp slowPeriod t =
        base + fastAmp * Real.sin (2 * Real.pi * fastFreq * t) +
          slowAmp * Real.sin (2 * Real.pi * t / slowPeriod) ∧
      wave_position 0 40 (1 / 4) 0 1 2 = 0 ∧
      wave_velocity 40 (1 / 4) 0 1 2 = -(20 * Real.pi) := by
  intro base fa ff sa sp t
  refine ⟨?_, ?_, ?_, ?_⟩
  · have h1 : HasDerivAt (fun u : ℝ => 2 * Real.pi * ff * u) (2 * Real.pi * ff) t := by
      simpa using (hasDerivAt_id t).const_mul (2 * Real.pi * ff)
    have h2 : HasDerivAt (fun u : ℝ => 2 * Real.pi * (1 / sp) * u)
        (2 * Real.pi * (1 / sp)) t := by
      simpa using (hasDerivAt_id t).const_mul (2 * Real.pi * (1 / sp))
    have h3 := (h1.sin).const_mul fa
    have h4 := (h2.sin).const_mul sa
    have h5 := (h3.add h4).const_add base
    have hval : wave_velocity fa ff sa sp t =
        fa * (Real.cos (2 * Real.pi * ff * t) * (2 * Real.pi * ff)) +
          sa * (Real.cos (2 * Real.pi * (1 / sp) * t) * (2 * Real.pi * (1 / sp))) := by
      unfold wave_velocity
      ring
    rw [hval]
    exact h5
  · unfold wave_position
    rw [show 2 * Real.pi * (1 / sp) * t = 2 * Real.pi * t / sp by ring]
    ring
  · unfold wave_position
    rw [show 2 * Real.pi * (1 / 4 : ℝ) * 2 = Real.pi by ring, Real.sin_pi]
    norm_num
  · unfold wave_velocity
    rw [show 2 * Real.pi * (1 / 4 : ℝ) * 2 = Real.pi by ring, Real.cos_pi]
    ring

/-- Window width in pixels. -/
def WINDOW_WIDTH : ℚ := 1200

/-- Window height in pixels. -/
def WINDOW_HEIGHT : ℚ := 800

/-- Left end of the sand slope (WINDOW_HEIGHT * (1/3)). -/
def SAND_LEFT_Y : ℚ := WINDOW_HEIGHT * (1 / 3)

/-- Right end of the sand slope (WINDOW_HEIGHT - 50). -/
def SAND_RIGHT_Y : ℚ := WINDOW_HEIGHT - 50

/-- Number of bump control segments. -/
def SAND_BUMP_COUNT : ℕ := 12

/-- Maximum random bump height in pixels. -/
def SAND_BUMP_HEIGHT : ℚ := 20

/-- Top of the water fill area (WINDOW_HEIGHT * 0.35). -/
def WATER_FILL_TOP : ℚ := WINDOW_HEIGHT * (35 / 100)

/-- Thickness of the wave wall. -/
def WAVE_WALL_THICKNESS : ℚ := 20

/-- Fast wave amplitude constant. -/
def WAVE_FAST_AMPLITUDE : ℚ := 40

/-- Slow wave amplitude constant. -/
def WAVE_SLOW_AMPLITUDE : ℚ := 120

/-- Base x position of the wave wall. -/
def WAVE_WALL_BASE_X : ℚ := WINDOW_WIDTH - 40 - WAVE_SLOW_AMPLITUDE

/-- Number of bitmap columns (WINDOW_WIDTH // SAND_CELL_SIZE). -/
def sand_cols : ℕ := 300

/-- Number of bitmap rows (WINDOW_HEIGHT // SAND_CELL_SIZE). -/
def sand_rows : ℕ := 200

/-- Horizontal and vertical particle seeding step (PARTICLE_RADIUS * 2.8). -/
def particle_spacing : ℚ := PARTICLE_RADIUS * (28 / 10)

/-- Bump control points of initialize_sand_bitmap: the linear slope sampled
at i / SAND_BUMP_COUNT plus the random bump, which is zero at the two
endpoints.  The bumps argument stands for the random.uniform draws. -/
def control_points (bumps : ℕ → ℚ) (i : ℕ) : ℚ :=
  SAND_LEFT_Y + ((i : ℚ) / (SAND_BUMP_COUNT : ℚ)) * (SAND_RIGHT_Y - SAND_LEFT_Y) +
    (if 0 < i ∧ i < SAND_BUMP_COUNT then bumps i else 0)

/-- Normalized column position t of initialize_sand_bitmap
(col / (sand_cols - 1)). -/
def column_t (col : ℕ) : ℚ := (col : ℚ) / ((sand_cols : ℚ) - 1)

/-- segment_t of initialize_sand_bitmap (t scaled to control segments). -/
def seg_t (col : ℕ) : ℚ := column_t col * (SAND_BUMP_COUNT : ℚ)

/-- Control segment index of a column: int(segment_t) clamped to the last
segment. -/
def seg_index (col : ℕ) : ℕ :=
  min (truncToInt (seg_t col)).toNat (SAND_BUMP_COUNT - 1)

/-- local_t of initialize_sand_bitmap (position within the segment). -/
def seg_local_t (col : ℕ) : ℚ := seg_t col - (seg_index col : ℚ)

/-- smooth_t of initialize_sand_bitmap (smoothstep of local_t). -/
def smooth_t (col : ℕ) : ℚ :=
  seg_local_t col * seg_local_t col * (3 - 2 * seg_local_t col)

/-- Column surface height of initialize_sand_bitmap: smoothstep
interpolation between the two control points around the column. -/
def surface_height (bumps : ℕ → ℚ) (col : ℕ) : ℚ :=
  control_points bumps (seg_index col) +
    smooth_t col *
      (control_points bumps (seg_index col + 1) - control_points bumps (seg_index col))

/-- The idealized linear slope at a column (the bumpless interpolant). -/
def ideal_height (col : ℕ) : ℚ :=
  SAND_LEFT_Y + column_t col * (SAND_RIGHT_Y - SAND_LEFT_Y)

/-- BeachSimulator.get_sand_surface_y: clamp the column derived from x and
read the float surface height. -/
def get_sand_surface_y (heights : ℕ → ℚ) (x : ℚ) : ℚ :=
  let col := truncToInt (x / SAND_CELL_SIZE)
  let col2 := max 0 (min col ((sand_cols : ℤ) - 1))
  heights col2.toNat

/-- The y loop of create_water_particles for one column: count the seeds
placed from WATER_FILL_TOP down to the sand surface.  The fuel bound 200
exceeds the loop length for every surface height inside the window. -/
def count_water_column (sandY : ℚ) : ℕ → ℚ → ℕ
  | 0, _ => 0
  | n + 1, y =>
    if y < sandY - PARTICLE_RADIUS * 2 then
      count_water_column sandY n (y + particle_spacing) + 1
    else 0

/-- Right end of the particle seeding area. -/
def max_particle_x : ℚ :=
  WAVE_WALL_BASE_X - (WAVE_FAST_AMPLITUDE + WAVE_SLOW_AMPLITUDE) -
    WAVE_WALL_THICKNESS - PARTICLE_RADIUS * 2

/-- The x loop of create_water_particles: one column of seeds per step of
particle_spacing until max_particle_x. -/
def count_water_cols (heights : ℕ → ℚ) : ℕ → ℚ → ℕ
  | 0, _ => 0
  | n + 1, x =>
    if x < max_particle_x then
      count_water_column (get_sand_surface_y heights x) 200 WATER_FILL_TOP +
        count_water_cols heights n (x + particle_spacing)
    else 0

/-- Number of water particles create_water_particles places over the given
surface heights (the particle count depends only on the heights: the small
random jitter added to each position does not enter the loop conditions). -/
def count_water_particles (heights : ℕ → ℚ) : ℕ :=
  count_water_cols heights 200 (PARTICLE_RADIUS * 2)

/-- An all-zero bump draw (every random.uniform call returning 0). -/
def bumpsZero : ℕ → ℚ := fun _ => 0

/-- A maximal bump draw (every random.uniform call returning 20). -/
def bumpsMax : ℕ → ℚ := fun _ => 20

set_option maxRecDepth 10000 in
/-- Claim C7, counterexample: two legal random bump draws produce surfaces
over which create_water_particles places different numbers of particles,
so a reset (which redraws the bumps) does not in general recreate the
original particle count. -/
theorem c7_counterexample :
    count_water_particles (surface_height bumpsZero) ≠
      count_water_particles (surface_height bumpsMax) := by
  with_unfolding_all decide

lemma smoothstep_interp_band (a b bump1 bump2 ideal s : ℚ)
    (hs0 : 0 ≤ s) (hs1 : s ≤ 1)
    (hb1 : |bump1| ≤ SAND_BUMP_HEIGHT) (hb2 : |bump2| ≤ SAND_BUMP_HEIGHT)
    (hab : a ≤ b) (hia : a ≤ ideal) (hib : ideal ≤ b) :
    |((a + bump1) + s * ((b + bump2) - (a + bump1))) - ideal| ≤
      SAND_BUMP_HEIGHT + (b - a) := by
  rw [abs_le] at hb1 hb2 ⊢
  constructor
  · nlinarith [mul_nonneg hs0 (by linarith : (0 : ℚ) ≤ b - a),
      mul_nonneg (by linarith : (0 : ℚ) ≤ 1 - s)
        (by linarith : (0 : ℚ) ≤ SAND_BUMP_HEIGHT + bump1),
      mul_nonneg hs0 (by linarith : (0 : ℚ) ≤ SAND_BUMP_HEIGHT + bump2)]
  · nlinarith [mul_nonneg (by linarith : (0 : ℚ) ≤ 1 - s)
        (by linarith : (0 : ℚ) ≤ b - a),
      mul_nonneg (by linarith : (0 : ℚ) ≤ 1 - s)
        (by linarith : (0 : ℚ) ≤ SAND_BUMP_HEIGHT - bump1),
      mul_nonneg hs0 (by linarith : (0 : ℚ) ≤ SAND_BUMP_HEIGHT - bump2)]

lemma seg_t_bounds (col : ℕ) (hcol : col < sand_cols) :
    0 ≤ seg_t col ∧ seg_t col ≤ 12 := by
  have h299 : col ≤ 299 := by
    have hc := hcol
    simp [sand_cols] at hc
    omega
  have hc : ((sand_cols : ℚ) - 1) = 299 := by norm_num [sand_cols]
  have hbc : ((SAND_BUMP_COUNT : ℕ) : ℚ) = 12 := by norm_num [SAND_BUMP_COUNT]
  have hcq : (col : ℚ) ≤ 299 := by exact_mod_cast h299
  constructor
  · rw [seg_t, column_t, hc, hbc]
    positivity
  · rw [seg_t, column_t, hc, hbc]
    rw [div_mul_eq_mul_div, div_le_iff₀ (by norm_num : (0 : ℚ) < 299)]
    nlinarith

lemma seg_index_bounds (col : ℕ) (hcol : col < sand_cols) :
    (seg_index col : ℚ) ≤ seg_t col ∧ seg_t col - (seg_index col : ℚ) ≤ 1 ∧
      seg_index col ≤ 11 := by
  obtain ⟨h0, h12⟩ := seg_t_bounds col hcol
  have hfloor : truncToInt (seg_t col) = ⌊seg_t col⌋ := by
    rw [truncToInt, if_pos h0]
  have hfl0 : 0 ≤ ⌊seg_t col⌋ := Int.floor_nonneg.mpr h0
  have hmain : seg_index col = min (⌊seg_t col⌋).toNat 11 := by
    rw [seg_index, hfloor]
    norm_num [SAND_BUMP_COUNT]
  rcases le_or_lt (⌊seg_t col⌋).toNat 11 with hle | hgt
  · have hieq : seg_index col = (⌊seg_t col⌋).toNat := by
      rw [hmain, min_eq_left hle]
    have hcast : ((seg_index col : ℕ) : ℚ) = ((⌊seg_t col⌋ : ℤ) : ℚ) := by
      rw [hieq]
      exact_mod_cast Int.toNat_of_nonneg hfl0
    refine ⟨?_, ?_, by omega⟩
    · rw [hcast]
      exact Int.floor_le _
    · rw [hcast]
      have hlt := Int.lt_floor_add_one (seg_t col)
      push_cast at hlt ⊢
      linarith
  · have hieq : seg_index col = 11 := by
      rw [hmain, min_eq_right (le_of_lt hgt)]
    have h12z : (12 : ℤ) ≤ ⌊seg_t col⌋ := by omega
    have h12q : (12 : ℚ) ≤ seg_t col := by
      have hf := Int.floor_le (seg_t col)
      have hcast : ((12 : ℤ) : ℚ) ≤ ((⌊seg_t col⌋ : ℤ) : ℚ) := by exact_mod_cast h12z
      push_cast at hcast
      linarith
    refine ⟨?_, ?_, by omega⟩
    · rw [hieq]
      push_cast
      linarith
    · rw [hieq]
      push_cast
      linarith

lemma smooth_t_bounds (col : ℕ) (hcol : col < sand_cols) :
    0 ≤ smooth_t col ∧ smooth_t col ≤ 1 := by
  obtain ⟨h1, h2, _⟩ := seg_index_bounds col hcol
  have hu0 : 0 ≤ seg_local_t col := by
    rw [seg_local_t]
    linarith
  have hu1 : seg_local_t col ≤ 1 := by
    rw [seg_local_t]
    linarith
  constructor
  · rw [smooth_t]
    nlinarith
  · rw [smooth_t]
    nlinarith [mul_nonneg (mul_nonneg
      (by linarith : (0 : ℚ) ≤ 1 - seg_local_t col)
      (by linarith : (0 : ℚ) ≤ 1 - seg_local_t col))
      (by linarith : (0 : ℚ) ≤ 1 + 2 * seg_local_t col)]

/-- Claim C7 (amended): a reset rebuilds the grid by the same procedure
with fresh random bumps.  Whenever every bump lies within the configured
bump height, every stored column surface height lies within
SAND_BUMP_HEIGHT plus one control segment's rise of the idealized linear
slope; the particle count recreated is the count the seeding loops produce
for the new surface, which need not equal the original count. -/
theorem c7_reset_surface_heights_in_band :
    ∀ (bumps : ℕ → ℚ), (∀ i, |bumps i| ≤ SAND_BUMP_HEIGHT) →
      ∀ col : ℕ, col < sand_cols →
      |surface_height bumps col - ideal_height col| ≤
        SAND_BUMP_HEIGHT + (SAND_RIGHT_Y - SAND_LEFT_Y) / (SAND_BUMP_COUNT : ℚ) := by
  intro bumps hb col hcol
  obtain ⟨hile, hult, hi11⟩ := seg_index_bounds col hcol
  obtain ⟨hs0, hs1⟩ := smooth_t_bounds col hcol
  have hbc : ((SAND_BUMP_COUNT : ℕ) : ℚ) = 12 := by norm_num [SAND_BUMP_COUNT]
  have hRL : (0 : ℚ) < SAND_RIGHT_Y - SAND_LEFT_Y := by
    norm_num [SAND_RIGHT_Y, SAND_LEFT_Y, WINDOW_HEIGHT]
  have hBle : ∀ j : ℕ,
      |(if 0 < j ∧ j < SAND_BUMP_COUNT then bumps j else 0 : ℚ)| ≤ SAND_BUMP_HEIGHT := by
    intro j
    split_ifs
    · exact hb j
    · norm_num [SAND_BUMP_HEIGHT]
  have hcp : ∀ j : ℕ, control_points bumps j =
      (SAND_LEFT_Y + ((j : ℚ) / 12) * (SAND_RIGHT_Y - SAND_LEFT_Y)) +
        (if 0 < j ∧ j < SAND_BUMP_COUNT then bumps j else 0) := by
    intro j
    rw [control_points, hbc]
  have hsurf : surface_height bumps col =
      ((SAND_LEFT_Y + ((seg_index col : ℚ) / 12) * (SAND_RIGHT_Y - SAND_LEFT_Y)) +
        (if 0 < seg_index col ∧ seg_index col < SAND_BUMP_COUNT then
          bumps (seg_index col) else 0)) +
      smooth_t col *
        (((SAND_LEFT_Y + (((seg_index col + 1 : ℕ) : ℚ) / 12) *
            (SAND_RIGHT_Y - SAND_LEFT_Y)) +
          (if 0 < seg_index col + 1 ∧ seg_index col + 1 < SAND_BUMP_COUNT then
            bumps (seg_index col + 1) else 0)) -
        ((SAND_LEFT_Y + ((seg_index col : ℚ) / 12) * (SAND_RIGHT_Y - SAND_LEFT_Y)) +
          (if 0 < seg_index col ∧ seg_index col < SAND_BUMP_COUNT then
            bumps (seg_index col) else 0))) := by
    unfold surface_height
    rw [hcp (seg_index col), hcp (seg_index col + 1)]
  have hst_eq : seg_t col = column_t col * 12 := by
    rw [seg_t, hbc]
  have hab : SAND_LEFT_Y + ((seg_index col : ℚ) / 12) * (SAND_RIGHT_Y - SAND_LEFT_Y) ≤
      SAND_LEFT_Y + (((seg_index col + 1 : ℕ) : ℚ) / 12) * (SAND_RIGHT_Y - SAND_LEFT_Y) := by
    push_cast
    nlinarith
  have hia : SAND_LEFT_Y + ((seg_index col : ℚ) / 12) * (SAND_RIGHT_Y - SAND_LEFT_Y) ≤
      ideal_height col := by
    rw [ideal_height]
    have h1 : (seg_index col : ℚ) ≤ column_t col * 12 := by
      rw [← hst_eq]
      exact hile
    nlinarith
  have hib : ideal_height col ≤
      SAND_LEFT_Y + (((seg_index col + 1 : ℕ) : ℚ) / 12) * (SAND_RIGHT_Y - SAND_LEFT_Y) := by
    rw [ideal_height]
    have h1 : column_t col * 12 ≤ (seg_index col : ℚ) + 1 := by
      rw [← hst_eq]
      linarith
    push_cast
    nlinarith
  have hmain := smoothstep_interp_band
    (SAND_LEFT_Y + ((seg_index col : ℚ) / 12) * (SAND_RIGHT_Y - SAND_LEFT_Y))
    (SAND_LEFT_Y + (((seg_index col + 1 : ℕ) : ℚ) / 12) * (SAND_RIGHT_Y - SAND_LEFT_Y))
    (if 0 < seg_index col ∧ seg_index col < SAND_BUMP_COUNT then bumps (seg_index col) else 0)
    (if 0 < seg_index col + 1 ∧ seg_index col + 1 < SAND_BUMP_COUNT then
      bumps (seg_index col + 1) else 0)
    (ideal_height col) (smooth_t col) hs0 hs1 (hBle (seg_index col))
    (hBle (seg_index col + 1)) hab hia hib
  rw [← hsurf] at hmain
  have hdiff : (SAND_LEFT_Y + (((seg_index col + 1 : ℕ) : ℚ) / 12) *
      (SAND_RIGHT_Y - SAND_LEFT_Y)) -
      (SAND_LEFT_Y + ((seg_index col : ℚ) / 12) * (SAND_RIGHT_Y - SAND_LEFT_Y)) =
      (SAND_RIGHT_Y - SAND_LEFT_Y) / 12 := by
    push_cast
    ring
  rw [hdiff] at hmain
  rw [hbc]
  exact hmain

/-- Witness for c7_reset_surface_heights_in_band at the all-zero bump draw
and column 0. -/
theorem c7_reset_surface_heights_in_band_witness :
    (∀ i, |bumpsZero i| ≤ SAND_BUMP_HEIGHT) ∧ (0 : ℕ) < sand_cols ∧
      |surface_height bumpsZero 0 - ideal_height 0| ≤
        SAND_BUMP_HEIGHT + (SAND_RIGHT_Y - SAND_LEFT_Y) / (SAND_BUMP_COUNT : ℚ) :=
  ⟨fun i => by simp [bumpsZero, SAND_BUMP_HEIGHT], by norm_num [sand_cols],
    c7_reset_surface_heights_in_band bumpsZero
      (fun i => by simp [bumpsZero, SAND_BUMP_HEIGHT]) 0 (by norm_num [sand_cols])⟩

/-- A water particle far outside the 6 × 6 grid; its whole scan radius is
out of range, so it performs no action. -/
def pFar : WaterParticle := { x := 100, y := 100, sandiness := 0 }

/-- Witness for c5_at_most_one_mutation_per_particle at the concrete run. -/
theorem c5_at_most_one_mutation_per_particle_witness :
    (process_particle 6 6 rand0 st0 pFar).2.2 = false ∧
      (process_particle 6 6 rand0 st0 pFar).1.occ = st0.occ ∧
      |(sandCount 6 6 (process_erosion_deposition 6 6 rand0 st0 ps0).1.occ : ℤ) -
        (sandCount 6 6 st0.occ : ℤ)| ≤
        ((process_erosion_deposition 6 6 rand0 st0 ps0).2.2 : ℤ) :=
  ⟨by with_unfolding_all decide,
    (c5_at_most_one_mutation_per_particle 6 6 rand0 st0 ps0).1 pFar
      (by with_unfolding_all decide),
    (c5_at_most_one_mutation_per_particle 6 6 rand0 st0 ps0).2⟩
